import Mathlib

/-!
Shallow embedding of the stock-mutation and alerting core of the
inventory application (source: src/server/queries.ts, src/unnamed/part_000
schema, src/unnamed/part_003 storage layer).

Quantities are decimal columns in the source (decimal(10,2), flowing
through JavaScript numbers); they are modelled as exact rationals (ℚ).
Dates (ISO date strings compared lexicographically in the source) are
modelled as naturals with the usual order.  The database is a record of
lists, one per table; the drizzle `db.transaction` rollback-on-throw
semantics is modelled by `Except`: an `error` result leaves the caller's
state untouched.
-/

namespace Inventory

/-- Transaction type column: the source stores the strings "stock_in" /
"stock_out" (varchar `type` of stock_transactions). -/
inductive TxType where
  | stock_in
  | stock_out
deriving DecidableEq, Repr

/-- products table (src/unnamed/part_000, pgTable "products"). -/
structure Product where
  id : Nat
  name : String
  unit : String
  openingStock : ℚ
  currentStock : ℚ
  isActive : Nat
deriving DecidableEq, Repr

/-- stock_transactions table (src/unnamed/part_000, pgTable "stock_transactions"). -/
structure StockTransaction where
  id : Nat
  productId : Nat
  userId : Nat
  type : TxType
  quantity : ℚ
  originalQuantity : Option ℚ
  originalUnit : Option String
  previousStock : ℚ
  newStock : ℚ
  transactionDate : Nat
  soNumber : Option String
  poNumber : Option String
deriving DecidableEq, Repr

/-- weekly_stock_plans table (src/unnamed/part_000, pgTable "weekly_stock_plans"). -/
structure WeeklyStockPlan where
  id : Nat
  productId : Nat
  userId : Nat
  plannedQuantity : ℚ
  unit : String
  weekStartDate : Nat
  weekEndDate : Nat
  isActive : Bool
  notes : Option String
deriving DecidableEq, Repr

/-- low_stock_alerts table (src/unnamed/part_000, pgTable "low_stock_alerts"). -/
structure LowStockAlert where
  id : Nat
  productId : Nat
  weeklyPlanId : Nat
  currentStock : ℚ
  plannedQuantity : ℚ
  alertLevel : String
  isResolved : Bool
  alertDate : Nat
  resolvedAt : Option Nat
deriving DecidableEq, Repr

/-- The database state: one list per table plus the serial counters that
assign fresh primary keys. -/
structure DB where
  products : List Product
  stockTransactions : List StockTransaction
  weeklyStockPlans : List WeeklyStockPlan
  lowStockAlerts : List LowStockAlert
  nextProductId : Nat
  nextTransactionId : Nat
  nextAlertId : Nat
deriving DecidableEq, Repr

/-- `select().from(products).where(eq(products.id, id)).limit(1)` —
first row of the products table with the given id
(productQueries.getById, src/server/queries.ts lines 140-147). -/
def findProduct (db : DB) (productId : Nat) : Option Product :=
  db.products.find? (fun p => p.id == productId)

/-- The row update `update(products).set({currentStock: newStock})
.where(eq(products.id, productId))` applied to the products list. -/
def setStock (l : List Product) (productId : Nat) (newStock : ℚ) : List Product :=
  l.map (fun p => if p.id == productId then { p with currentStock := newStock } else p)

/-- productQueries.create (src/server/queries.ts lines 150-159): inserts a
product whose currentStock is initialised from its openingStock. -/
def createProduct (db : DB) (name unit : String) (openingStock : ℚ) : DB × Product :=
  let p : Product :=
    { id := db.nextProductId, name := name, unit := unit,
      openingStock := openingStock, currentStock := openingStock, isActive := 1 }
  ({ db with products := db.products ++ [p], nextProductId := db.nextProductId + 1 }, p)

/-- transactionHelpers.processStockIn (src/server/queries.ts lines 617-674):
inside one database transaction, read the product, add the quantity to its
current stock, persist the product and append a stock_in transaction row.
The `remarks` argument exists in the source signature but is unused. -/
def processStockIn (db : DB) (productId userId : Nat) (quantity : ℚ)
    (transactionDate : Nat) (remarks : Option String)
    (poNumber : Option String) (originalQuantity : Option ℚ)
    (originalUnit : Option String) :
    Except String (DB × StockTransaction × Product) :=
  match db.products.find? (fun p => p.id == productId) with
  | none => .error "Product not found"
  | some current =>
    let previousStock := current.currentStock
    let newStock := previousStock + quantity
    let tx : StockTransaction :=
      { id := db.nextTransactionId, productId := productId, userId := userId,
        type := .stock_in, quantity := quantity,
        originalQuantity := originalQuantity, originalUnit := originalUnit,
        previousStock := previousStock, newStock := newStock,
        transactionDate := transactionDate, poNumber := poNumber, soNumber := none }
    let db' : DB :=
      { db with products := setStock db.products productId newStock,
                stockTransactions := db.stockTransactions ++ [tx],
                nextTransactionId := db.nextTransactionId + 1 }
    .ok (db', tx, { current with currentStock := newStock })

/-- The error message built at src/server/queries.ts lines 703-705. -/
def insufficientStockMessage (available requested : ℚ) : String :=
  "Insufficient stock. Available: " ++ toString available ++
    ", Requested: " ++ toString requested

/-- transactionHelpers.processStockOut (src/server/queries.ts lines 677-740):
inside one database transaction, read the product, throw if
currentStock < quantity, otherwise subtract the quantity, persist the
product and append a stock_out transaction row.  A thrown error rolls the
transaction back, so the error branch returns no state. -/
def processStockOut (db : DB) (productId userId : Nat) (quantity : ℚ)
    (transactionDate : Nat) (soNumber : Option String)
    (originalQuantity : Option ℚ) (originalUnit : Option String) :
    Except String (DB × StockTransaction × Product) :=
  match db.products.find? (fun p => p.id == productId) with
  | none => .error "Product not found"
  | some current =>
    let previousStock := current.currentStock
    if previousStock < quantity then
      .error (insufficientStockMessage previousStock quantity)
    else
      let newStock := previousStock - quantity
      let tx : StockTransaction :=
        { id := db.nextTransactionId, productId := productId, userId := userId,
          type := .stock_out, quantity := quantity,
          originalQuantity := originalQuantity, originalUnit := originalUnit,
          previousStock := previousStock, newStock := newStock,
          transactionDate := transactionDate, soNumber := soNumber, poNumber := none }
      let db' : DB :=
        { db with products := setStock db.products productId newStock,
                  stockTransactions := db.stockTransactions ++ [tx],
                  nextTransactionId := db.nextTransactionId + 1 }
      .ok (db', tx, { current with currentStock := newStock })

/-- The caller-visible state after a stock-out request: on success the
committed state, on a thrown error the rolled-back (unchanged) state. -/
def stockOutFinalState (db : DB) (productId userId : Nat) (quantity : ℚ)
    (transactionDate : Nat) (soNumber : Option String) : DB :=
  match processStockOut db productId userId quantity transactionDate soNumber none none with
  | .ok (db', _, _) => db'
  | .error _ => db

/-- A stock-movement request against one product, as submitted by a caller
of the transaction helpers. -/
inductive StockOp where
  | opIn (userId : Nat) (quantity : ℚ) (transactionDate : Nat)
  | opOut (userId : Nat) (quantity : ℚ) (transactionDate : Nat)
deriving DecidableEq, Repr

/-- Apply one request to the database: a committed transaction yields the
new state, a thrown (rolled-back) one leaves the state unchanged. -/
def applyOp (db : DB) (productId : Nat) : StockOp → DB
  | .opIn userId quantity transactionDate =>
    match processStockIn db productId userId quantity transactionDate none none none none with
    | .ok (db', _, _) => db'
    | .error _ => db
  | .opOut userId quantity transactionDate =>
    match processStockOut db productId userId quantity transactionDate none none none with
    | .ok (db', _, _) => db'
    | .error _ => db

/-- Apply a sequence of requests in order. -/
def runOps (db : DB) (productId : Nat) : List StockOp → DB
  | [] => db
  | op :: rest => runOps (applyOp db productId op) productId rest

/-- Signed contribution of a recorded transaction to its product's balance. -/
def txDelta (t : StockTransaction) : ℚ :=
  match t.type with
  | .stock_in => t.quantity
  | .stock_out => -t.quantity

/-- Net ledger movement recorded for a product across a transaction list. -/
def ledgerSum (ts : List StockTransaction) (productId : Nat) : ℚ :=
  ((ts.filter (fun t => t.productId == productId)).map txDelta).sum

/-- Sum of the quantities of the stock_in transactions of a product. -/
def stockInSum (ts : List StockTransaction) (productId : Nat) : ℚ :=
  ((ts.filter (fun t => t.productId == productId && t.type == TxType.stock_in)).map
    (fun t => t.quantity)).sum

/-- Sum of the quantities of the stock_out transactions of a product. -/
def stockOutSum (ts : List StockTransaction) (productId : Nat) : ℚ :=
  ((ts.filter (fun t => t.productId == productId && t.type == TxType.stock_out)).map
    (fun t => t.quantity)).sum

/-- weeklyStockPlanQueries.getCurrentWeekPlans (src/server/queries.ts lines
840-889): active plans whose inclusive week window contains the as-of
date, each left-joined to its product row.  The filter tests only the
plan's isActive flag; the joined product row is looked up by id with no
condition on the product's own active flag. -/
def getCurrentWeekPlans (db : DB) (asOfDate : Nat) :
    List (WeeklyStockPlan × Option Product) :=
  (db.weeklyStockPlans.filter (fun pl =>
      pl.isActive && decide (pl.weekStartDate ≤ asOfDate) &&
        decide (asOfDate ≤ pl.weekEndDate))).map
    (fun pl => (pl, db.products.find? (fun p => p.id == pl.productId)))

/-- Element type of the list produced by checkLowStockAlerts. -/
structure LowStockItem where
  productId : Nat
  productName : String
  currentStock : ℚ
  plannedQuantity : ℚ
  weeklyPlanId : Nat
  unit : String
deriving DecidableEq, Repr

/-- weeklyStockPlanQueries.checkLowStockAlerts (src/server/queries.ts lines
923-951): for each current-week plan whose product's currentStock is
strictly below the plannedQuantity, emit a shortage descriptor.  A pure
read — no table is written. -/
def checkLowStockAlerts (db : DB) (asOfDate : Nat) : List LowStockItem :=
  (getCurrentWeekPlans db asOfDate).filterMap (fun pair =>
    match pair.2 with
    | none => none
    | some prod =>
      if prod.currentStock < pair.1.plannedQuantity then
        some { productId := pair.1.productId, productName := prod.name,
               currentStock := prod.currentStock,
               plannedQuantity := pair.1.plannedQuantity,
               weeklyPlanId := pair.1.id, unit := pair.1.unit }
      else none)

/-- The duplicate-alert existence check of processLowStockChecking
(src/server/queries.ts lines 1032-1042): is there an unresolved alert for
this (product, weekly plan) pair? -/
def hasUnresolvedAlert (alerts : List LowStockAlert) (productId weeklyPlanId : Nat) : Bool :=
  alerts.any (fun a =>
    a.productId == productId && a.weeklyPlanId == weeklyPlanId && !a.isResolved)

/-- The alert row built and inserted by processLowStockChecking
(src/server/queries.ts lines 1044-1055), with severity
"critical" when currentStock ≤ plannedQuantity * 0.5, else "low". -/
def mkAlert (item : LowStockItem) (alertId : Nat) (asOfDate : Nat) : LowStockAlert :=
  { id := alertId, productId := item.productId, weeklyPlanId := item.weeklyPlanId,
    currentStock := item.currentStock, plannedQuantity := item.plannedQuantity,
    alertLevel :=
      if item.currentStock ≤ item.plannedQuantity * (1 / 2) then "critical" else "low",
    isResolved := false, alertDate := asOfDate, resolvedAt := none }

/-- The per-item loop of processLowStockChecking (src/server/queries.ts
lines 1030-1056): for each shortage, if no unresolved alert exists for the
pair, insert a fresh alert and collect it in the returned list. -/
def processItems (db : DB) (asOfDate : Nat) : List LowStockItem → DB × List LowStockAlert
  | [] => (db, [])
  | item :: rest =>
    if hasUnresolvedAlert db.lowStockAlerts item.productId item.weeklyPlanId then
      processItems db asOfDate rest
    else
      let a := mkAlert item db.nextAlertId asOfDate
      let db' : DB :=
        { db with lowStockAlerts := db.lowStockAlerts ++ [a],
                  nextAlertId := db.nextAlertId + 1 }
      let r := processItems db' asOfDate rest
      (r.1, a :: r.2)

/-- lowStockAlertQueries.processLowStockChecking (src/server/queries.ts
lines 1026-1059): run shortage detection, de-duplicate against unresolved
alerts, insert the missing alerts and return the newly created ones. -/
def processLowStockChecking (db : DB) (asOfDate : Nat) : DB × List LowStockAlert :=
  processItems db asOfDate (checkLowStockAlerts db asOfDate)

/-- Caller-supplied input record of DatabaseStorage.createStockTransaction
(src/unnamed/part_003 lines 196-243). -/
structure TxInput where
  productId : Nat
  userId : Nat
  type : TxType
  quantity : ℚ
  originalQuantity : Option ℚ
  originalUnit : Option String
  poNumber : Option String
  soNumber : Option String
  transactionDate : Nat
deriving DecidableEq, Repr

/-- The mutation-engine call dispatched by createStockTransaction: stock_in
requests go to processStockIn (with undefined remarks), everything else to
processStockOut. -/
def engineAttempt (db : DB) (input : TxInput) :
    Except String (DB × StockTransaction × Product) :=
  match input.type with
  | .stock_in =>
    processStockIn db input.productId input.userId input.quantity
      input.transactionDate none input.poNumber input.originalQuantity input.originalUnit
  | .stock_out =>
    processStockOut db input.productId input.userId input.quantity
      input.transactionDate input.soNumber input.originalQuantity input.originalUnit

/-- The fabricated fallback record returned by createStockTransaction's
catch block (src/unnamed/part_003 lines 224-242): a random id in 1..1000,
previousStock "100.00" and newStock "110.00" for stock_in, "90.00"
otherwise.  `randId` stands for the `Math.random()` draw. -/
def fallbackTransaction (input : TxInput) (randId : Nat) : StockTransaction :=
  { id := randId % 1000 + 1, productId := input.productId, userId := input.userId,
    type := input.type, quantity := input.quantity,
    originalQuantity := input.originalQuantity, originalUnit := input.originalUnit,
    previousStock := 100,
    newStock := if input.type == TxType.stock_in then 110 else 90,
    transactionDate := input.transactionDate,
    soNumber := input.soNumber, poNumber := input.poNumber }

/-- DatabaseStorage.createStockTransaction (src/unnamed/part_003 lines
196-243): call the mutation engine and return its transaction; on any
thrown error, swallow the error and return a fabricated record against the
unchanged (rolled-back) database state. -/
def createStockTransaction (db : DB) (input : TxInput) (randId : Nat) :
    DB × StockTransaction :=
  match engineAttempt db input with
  | .ok (db', tx, _) => (db', tx)
  | .error _ => (db, fallbackTransaction input randId)

/-! ### Helper lemmas -/

lemma find?_setStock (l : List Product) (productId : Nat) (ns : ℚ) :
    (setStock l productId ns).find? (fun p => p.id == productId)
      = (l.find? (fun p => p.id == productId)).map
          (fun p => { p with currentStock := ns }) := by
  induction l with
  | nil => rfl
  | cons a t ih =>
    by_cases h : a.id = productId
    · simp [setStock, List.find?_cons_of_pos, h] at ih ⊢
    · simp only [setStock, List.map_cons] at ih ⊢
      rw [if_neg (by simpa using h), List.find?_cons_of_neg _ (by simpa using h),
        List.find?_cons_of_neg _ (by simpa using h), ih]

lemma processStockIn_eq (db : DB) (productId userId : Nat) (quantity : ℚ)
    (d : Nat) (rem po : Option String) (oq : Option ℚ) (ou : Option String)
    (p : Product) (h : findProduct db productId = some p) :
    processStockIn db productId userId quantity d rem po oq ou =
      .ok
        ({ db with
            products := setStock db.products productId (p.currentStock + quantity),
            stockTransactions := db.stockTransactions ++
              [{ id := db.nextTransactionId, productId := productId, userId := userId,
                 type := .stock_in, quantity := quantity,
                 originalQuantity := oq, originalUnit := ou,
                 previousStock := p.currentStock,
                 newStock := p.currentStock + quantity,
                 transactionDate := d, poNumber := po, soNumber := none }],
            nextTransactionId := db.nextTransactionId + 1 },
         { id := db.nextTransactionId, productId := productId, userId := userId,
           type := .stock_in, quantity := quantity,
           originalQuantity := oq, originalUnit := ou,
           previousStock := p.currentStock, newStock := p.currentStock + quantity,
           transactionDate := d, poNumber := po, soNumber := none },
         { p with currentStock := p.currentStock + quantity }) := by
  unfold findProduct at h
  simp [processStockIn, h]

lemma processStockOut_eq_ok (db : DB) (productId userId : Nat) (quantity : ℚ)
    (d : Nat) (so : Option String) (oq : Option ℚ) (ou : Option String)
    (p : Product) (h : findProduct db productId = some p)
    (hle : ¬p.currentStock < quantity) :
    processStockOut db productId userId quantity d so oq ou =
      .ok
        ({ db with
            products := setStock db.products productId (p.currentStock - quantity),
            stockTransactions := db.stockTransactions ++
              [{ id := db.nextTransactionId, productId := productId, userId := userId,
                 type := .stock_out, quantity := quantity,
                 originalQuantity := oq, originalUnit := ou,
                 previousStock := p.currentStock,
                 newStock := p.currentStock - quantity,
                 transactionDate := d, soNumber := so, poNumber := none }],
            nextTransactionId := db.nextTransactionId + 1 },
         { id := db.nextTransactionId, productId := productId, userId := userId,
           type := .stock_out, quantity := quantity,
           originalQuantity := oq, originalUnit := ou,
           previousStock := p.currentStock, newStock := p.currentStock - quantity,
           transactionDate := d, soNumber := so, poNumber := none },
         { p with currentStock := p.currentStock - quantity }) := by
  unfold findProduct at h
  simp [processStockOut, h, hle]

lemma processStockOut_eq_error (db : DB) (productId userId : Nat) (quantity : ℚ)
    (d : Nat) (so : Option String) (oq : Option ℚ) (ou : Option String)
    (p : Product) (h : findProduct db productId = some p)
    (hlt : p.currentStock < quantity) :
    processStockOut db productId userId quantity d so oq ou =
      .error (insufficientStockMessage p.currentStock quantity) := by
  unfold findProduct at h
  simp [processStockOut, h, hlt]

/-! ### Claim theorems -/

/-- Claim C1: on an existing product, processStockOut fails (with the
insufficient-stock error) exactly when the requested quantity strictly
exceeds the current stock; the failure message carries both the available
and the requested quantity; a failed request leaves the database — current
stock and transaction log included — unchanged; and a request for exactly
the current stock succeeds and leaves the stock at 0. -/
theorem stockOut_insufficient_iff (db : DB) (productId userId : Nat)
    (quantity : ℚ) (d : Nat) (so : Option String) (oq : Option ℚ)
    (ou : Option String) (p : Product) (h : findProduct db productId = some p) :
    ((∃ e, processStockOut db productId userId quantity d so oq ou = .error e) ↔
        p.currentStock < quantity)
    ∧ (p.currentStock < quantity →
        processStockOut db productId userId quantity d so oq ou =
            .error (insufficientStockMessage p.currentStock quantity)
          ∧ stockOutFinalState db productId userId quantity d so = db
          ∧ ∃ s₁ s₂, insufficientStockMessage p.currentStock quantity =
              s₁ ++ toString p.currentStock ++ s₂ ++ toString quantity)
    ∧ (quantity = p.currentStock →
        ∃ db' tx p',
          processStockOut db productId userId quantity d so oq ou = .ok (db', tx, p')
            ∧ p'.currentStock = 0) := by
  refine ⟨⟨fun he => ?_, fun hlt => ?_⟩, fun hlt => ⟨?_, ?_, ?_⟩, fun heq => ?_⟩
  · by_contra hnlt
    obtain ⟨e, he⟩ := he
    rw [processStockOut_eq_ok db productId userId quantity d so oq ou p h hnlt] at he
    exact Except.noConfusion he
  · exact ⟨_, processStockOut_eq_error db productId userId quantity d so oq ou p h hlt⟩
  · exact processStockOut_eq_error db productId userId quantity d so oq ou p h hlt
  · unfold stockOutFinalState
    rw [processStockOut_eq_error db productId userId quantity d so none none p h hlt]
  · exact ⟨"Insufficient stock. Available: ", ", Requested: ", rfl⟩
  · refine ⟨_, _, _, processStockOut_eq_ok db productId userId quantity d so oq ou p h
      (by rw [heq]; exact lt_irrefl _), ?_⟩
    simp [heq]

/-- Claim C2: every committed mutation satisfies the ledger equation — the
recorded previousStock is the product's currentStock read at the start,
newStock is previousStock plus (stock-in) or minus (stock-out) the
quantity, the recorded row is appended to the transaction log, and the
product's stored currentStock afterwards equals the recorded newStock. -/
theorem ledger_equation (db db' : DB) (productId userId : Nat) (quantity : ℚ)
    (d : Nat) (tx : StockTransaction) (p p' : Product)
    (h : findProduct db productId = some p) :
    (∀ rem po oq ou,
      processStockIn db productId userId quantity d rem po oq ou = .ok (db', tx, p') →
        tx.previousStock = p.currentStock
        ∧ tx.newStock = tx.previousStock + quantity
        ∧ tx.type = .stock_in ∧ tx.quantity = quantity
        ∧ p'.currentStock = tx.newStock
        ∧ (∃ q, findProduct db' productId = some q ∧ q.currentStock = tx.newStock)
        ∧ db'.stockTransactions = db.stockTransactions ++ [tx])
    ∧ (∀ so oq ou,
      processStockOut db productId userId quantity d so oq ou = .ok (db', tx, p') →
        tx.previousStock = p.currentStock
        ∧ tx.newStock = tx.previousStock - quantity
        ∧ tx.type = .stock_out ∧ tx.quantity = quantity
        ∧ p'.currentStock = tx.newStock
        ∧ (∃ q, findProduct db' productId = some q ∧ q.currentStock = tx.newStock)
        ∧ db'.stockTransactions = db.stockTransactions ++ [tx]) := by
  constructor
  · intro rem po oq ou hok
    rw [processStockIn_eq db productId userId quantity d rem po oq ou p h] at hok
    obtain ⟨h1, h2, h3⟩ := by simpa using hok
    subst h1; subst h2; subst h3
    refine ⟨rfl, rfl, rfl, rfl, rfl,
      ⟨{ p with currentStock := p.currentStock + quantity }, ?_, rfl⟩, rfl⟩
    unfold findProduct
    simp only [find?_setStock]
    unfold findProduct at h
    rw [h]
    rfl
  · intro so oq ou hok
    by_cases hlt : p.currentStock < quantity
    · rw [processStockOut_eq_error db productId userId quantity d so oq ou p h hlt] at hok
      exact Except.noConfusion hok
    · rw [processStockOut_eq_ok db productId userId quantity d so oq ou p h hlt] at hok
      obtain ⟨h1, h2, h3⟩ := by simpa using hok
      subst h1; subst h2; subst h3
      refine ⟨rfl, rfl, rfl, rfl, rfl,
        ⟨{ p with currentStock := p.currentStock - quantity }, ?_, rfl⟩, rfl⟩
      unfold findProduct
      simp only [find?_setStock]
      unfold findProduct at h
      rw [h]
      rfl

/-! ### Concrete sample data for witnesses -/

/-- A sample product row, as in the spec's Rice scenario. -/
def wProduct : Product :=
  { id := 1, name := "Rice", unit := "KG", openingStock := 100,
    currentStock := 100, isActive := 1 }

/-- A sample database holding only the sample product. -/
def wDB : DB :=
  { products := [wProduct], stockTransactions := [], weeklyStockPlans := [],
    lowStockAlerts := [], nextProductId := 2, nextTransactionId := 1, nextAlertId := 1 }

/-- The transaction row recorded for a 50-unit stock-in on the sample product. -/
def wInTx : StockTransaction :=
  { id := 1, productId := 1, userId := 7, type := .stock_in, quantity := 50,
    originalQuantity := none, originalUnit := none,
    previousStock := 100, newStock := 100 + 50, transactionDate := 0,
    poNumber := some "PO-1", soNumber := none }

/-- The database after that stock-in. -/
def wInDB : DB :=
  { products := setStock wDB.products 1 (100 + 50), stockTransactions := [wInTx],
    weeklyStockPlans := [], lowStockAlerts := [],
    nextProductId := 2, nextTransactionId := 2, nextAlertId := 1 }

/-- The updated product returned by that stock-in. -/
def wInP : Product := { wProduct with currentStock := 100 + 50 }

/-- The transaction row recorded for a 40-unit stock-out on the sample product. -/
def wOutTx : StockTransaction :=
  { id := 1, productId := 1, userId := 7, type := .stock_out, quantity := 40,
    originalQuantity := none, originalUnit := none,
    previousStock := 100, newStock := 100 - 40, transactionDate := 0,
    poNumber := none, soNumber := some "SO-1" }

/-- The database after that stock-out. -/
def wOutDB : DB :=
  { products := setStock wDB.products 1 (100 - 40), stockTransactions := [wOutTx],
    weeklyStockPlans := [], lowStockAlerts := [],
    nextProductId := 2, nextTransactionId := 2, nextAlertId := 1 }

/-- The updated product returned by that stock-out. -/
def wOutP : Product := { wProduct with currentStock := 100 - 40 }

/-- Witness for C1: the sample database satisfies the hypothesis, and a
request for 150 against a stock of 100 is in the failing regime. -/
theorem stockOut_insufficient_iff_witness :
    findProduct wDB 1 = some wProduct ∧
      ((∃ e, processStockOut wDB 1 7 150 0 (some "SO-1") none none = .error e) ↔
        wProduct.currentStock < 150) :=
  ⟨rfl, (stockOut_insufficient_iff wDB 1 7 150 0 (some "SO-1") none none wProduct rfl).1⟩

/-- Witness for C2: both the stock-in and the stock-out branch of the
ledger equation, instantiated on the sample database. -/
theorem ledger_equation_witness :
    (findProduct wDB 1 = some wProduct
      ∧ wInTx.previousStock = wProduct.currentStock
      ∧ wInTx.newStock = wInTx.previousStock + 50
      ∧ (∃ q, findProduct wInDB 1 = some q ∧ q.currentStock = wInTx.newStock)
      ∧ wInDB.stockTransactions = wDB.stockTransactions ++ [wInTx])
    ∧ (wOutTx.previousStock = wProduct.currentStock
      ∧ wOutTx.newStock = wOutTx.previousStock - 40
      ∧ (∃ q, findProduct wOutDB 1 = some q ∧ q.currentStock = wOutTx.newStock)
      ∧ wOutDB.stockTransactions = wDB.stockTransactions ++ [wOutTx]) := by
  have hin := (ledger_equation wDB wInDB 1 7 50 0 wInTx wProduct wInP rfl).1
    none (some "PO-1") none none rfl
  have hout := (ledger_equation wDB wOutDB 1 7 40 0 wOutTx wProduct wOutP rfl).2
    (some "SO-1") none none rfl
  exact ⟨⟨rfl, hin.1, hin.2.1, hin.2.2.2.2.2.1, hin.2.2.2.2.2.2⟩,
    ⟨hout.1, hout.2.1, hout.2.2.2.2.2.1, hout.2.2.2.2.2.2⟩⟩

/-! ### Lemmas about sequences of operations -/

lemma ledgerSum_nil (productId : Nat) : ledgerSum [] productId = 0 := rfl

lemma ledgerSum_append (l₁ l₂ : List StockTransaction) (productId : Nat) :
    ledgerSum (l₁ ++ l₂) productId = ledgerSum l₁ productId + ledgerSum l₂ productId := by
  simp [ledgerSum, List.filter_append]

lemma ledgerSum_single_of_mem (t : StockTransaction) (productId : Nat)
    (h : t.productId = productId) : ledgerSum [t] productId = txDelta t := by
  simp [ledgerSum, List.filter, h]

lemma ledger_split (ts : List StockTransaction) (productId : Nat) :
    ledgerSum ts productId = stockInSum ts productId - stockOutSum ts productId := by
  induction ts with
  | nil => simp [ledgerSum, stockInSum, stockOutSum]
  | cons t rest ih =>
    by_cases hp : t.productId = productId
    · cases htype : t.type with
      | stock_in =>
        simp only [ledgerSum, stockInSum, stockOutSum, List.filter_cons] at ih ⊢
        simp [hp, htype, txDelta, ih]
        ring
      | stock_out =>
        simp only [ledgerSum, stockInSum, stockOutSum, List.filter_cons] at ih ⊢
        simp [hp, htype, txDelta, ih]
        ring
    · simp only [ledgerSum, stockInSum, stockOutSum, List.filter_cons] at ih ⊢
      simp [hp, ih]

lemma applyOp_step (db : DB) (productId : Nat) (op : StockOp) (p : Product)
    (h : findProduct db productId = some p) :
    ∃ suffix p',
      (applyOp db productId op).stockTransactions = db.stockTransactions ++ suffix
      ∧ findProduct (applyOp db productId op) productId = some p'
      ∧ p'.currentStock = p.currentStock + ledgerSum suffix productId := by
  cases op with
  | opIn userId quantity d =>
    refine
      ⟨[{ id := db.nextTransactionId, productId := productId, userId := userId,
          type := .stock_in, quantity := quantity,
          originalQuantity := none, originalUnit := none,
          previousStock := p.currentStock, newStock := p.currentStock + quantity,
          transactionDate := d, poNumber := none, soNumber := none }],
        { p with currentStock := p.currentStock + quantity }, ?_, ?_, ?_⟩
    · simp [applyOp, processStockIn_eq db productId userId quantity d none none none none p h]
    · simp only [applyOp, processStockIn_eq db productId userId quantity d none none none none p h]
      unfold findProduct
      simp only [find?_setStock]
      unfold findProduct at h
      rw [h]
      rfl
    · rw [ledgerSum_single_of_mem _ _ rfl]
      rfl
  | opOut userId quantity d =>
    by_cases hlt : p.currentStock < quantity
    · refine ⟨[], p, ?_, ?_, ?_⟩
      · simp [applyOp, processStockOut_eq_error db productId userId quantity d none none none p h hlt]
      · simp [applyOp, processStockOut_eq_error db productId userId quantity d none none none p h hlt, h]
      · rw [ledgerSum_nil, add_zero]
    · refine
        ⟨[{ id := db.nextTransactionId, productId := productId, userId := userId,
            type := .stock_out, quantity := quantity,
            originalQuantity := none, originalUnit := none,
            previousStock := p.currentStock, newStock := p.currentStock - quantity,
            transactionDate := d, poNumber := none, soNumber := none }],
          { p with currentStock := p.currentStock - quantity }, ?_, ?_, ?_⟩
      · simp [applyOp, processStockOut_eq_ok db productId userId quantity d none none none p h hlt]
      · simp only [applyOp, processStockOut_eq_ok db productId userId quantity d none none none p h hlt]
        unfold findProduct
        simp only [find?_setStock]
        unfold findProduct at h
        rw [h]
        rfl
      · rw [ledgerSum_single_of_mem _ _ rfl]
        simp [txDelta, sub_eq_add_neg]

lemma runOps_ledger (productId : Nat) (ops : List StockOp) :
    ∀ db p, findProduct db productId = some p →
      ∃ suffix p',
        (runOps db productId ops).stockTransactions = db.stockTransactions ++ suffix
        ∧ findProduct (runOps db productId ops) productId = some p'
        ∧ p'.currentStock = p.currentStock + ledgerSum suffix productId := by
  induction ops with
  | nil =>
    intro db p h
    exact ⟨[], p, by simp [runOps], by simpa [runOps] using h, by rw [ledgerSum_nil, add_zero]⟩
  | cons op rest ih =>
    intro db p h
    obtain ⟨s₁, p₁, hs₁, hf₁, hc₁⟩ := applyOp_step db productId op p h
    obtain ⟨s₂, p₂, hs₂, hf₂, hc₂⟩ := ih (applyOp db productId op) p₁ hf₁
    refine ⟨s₁ ++ s₂, p₂, ?_, ?_, ?_⟩
    · rw [show runOps db productId (op :: rest) = runOps (applyOp db productId op) productId rest from rfl,
        hs₂, hs₁, List.append_assoc]
    · exact hf₂
    · rw [hc₂, hc₁, ledgerSum_append, add_assoc]

lemma find?_append_of_none {α : Type} (l₁ l₂ : List α) (pred : α → Bool)
    (h : l₁.find? pred = none) : (l₁ ++ l₂).find? pred = l₂.find? pred := by
  rw [List.find?_append, h, Option.none_or]

/-- Claim C3: a product created with opening stock O, subjected to any
sequence of stock-in/out requests, ends with
currentStock = O + Σ(stock_in quantities) − Σ(stock_out quantities) over
the transactions the engine recorded; rejected requests record nothing and
contribute nothing. -/
theorem balance_invariant (db db₁ : DB) (pname punit : String) (openingStock : ℚ)
    (p₀ : Product) (ops : List StockOp)
    (hfresh : ∀ q ∈ db.products, q.id ≠ db.nextProductId)
    (hcreate : createProduct db pname punit openingStock = (db₁, p₀)) :
    ∃ suffix p',
      (runOps db₁ p₀.id ops).stockTransactions = db₁.stockTransactions ++ suffix
      ∧ findProduct (runOps db₁ p₀.id ops) p₀.id = some p'
      ∧ p'.currentStock =
          openingStock + stockInSum suffix p₀.id - stockOutSum suffix p₀.id := by
  have hp₀ : p₀ =
      { id := db.nextProductId, name := pname, unit := punit,
        openingStock := openingStock, currentStock := openingStock, isActive := 1 } := by
    have := congrArg Prod.snd hcreate
    simp [createProduct] at this
    rw [← this]
  have hdb₁ : db₁ =
      { db with products := db.products ++ [p₀],
                nextProductId := db.nextProductId + 1 } := by
    have := congrArg Prod.fst hcreate
    simp [createProduct] at this
    rw [← this, hp₀]
  have hfind : findProduct db₁ p₀.id = some p₀ := by
    rw [hdb₁]
    unfold findProduct
    simp only []
    rw [find?_append_of_none]
    · rw [hp₀]
      simp [List.find?]
    · rw [List.find?_eq_none]
      intro x hx
      simpa [hp₀] using hfresh x hx
  obtain ⟨suffix, p', hs, hf, hc⟩ := runOps_ledger p₀.id ops db₁ p₀ hfind
  refine ⟨suffix, p', hs, hf, ?_⟩
  rw [hc, ledger_split, hp₀]
  ring

/-- A fresh empty database for the balance-invariant witness. -/
def w3DB : DB :=
  { products := [], stockTransactions := [], weeklyStockPlans := [],
    lowStockAlerts := [], nextProductId := 1, nextTransactionId := 1, nextAlertId := 1 }

/-- The product created in the balance-invariant witness. -/
def w3P : Product :=
  { id := 1, name := "Rice", unit := "KG", openingStock := 100,
    currentStock := 100, isActive := 1 }

/-- The database produced by that creation. -/
def w3DB₁ : DB :=
  { products := [w3P], stockTransactions := [], weeklyStockPlans := [],
    lowStockAlerts := [], nextProductId := 2, nextTransactionId := 1, nextAlertId := 1 }

/-- Witness for C3: create Rice with opening stock 100 in an empty database
and run one accepted stock-in; the hypotheses hold and the balance
equation follows. -/
theorem balance_invariant_witness :
    (∀ q ∈ w3DB.products, q.id ≠ w3DB.nextProductId)
    ∧ createProduct w3DB "Rice" "KG" 100 = (w3DB₁, w3P)
    ∧ ∃ suffix p',
        (runOps w3DB₁ w3P.id [StockOp.opIn 7 50 0]).stockTransactions =
            w3DB₁.stockTransactions ++ suffix
        ∧ findProduct (runOps w3DB₁ w3P.id [StockOp.opIn 7 50 0]) w3P.id = some p'
        ∧ p'.currentStock = 100 + stockInSum suffix w3P.id - stockOutSum suffix w3P.id :=
  ⟨by simp [w3DB], rfl,
    balance_invariant w3DB w3DB₁ "Rice" "KG" 100 w3P [StockOp.opIn 7 50 0]
      (by simp [w3DB]) rfl⟩

lemma applyOp_nonneg (db : DB) (productId : Nat) (op : StockOp) (p : Product)
    (h : findProduct db productId = some p) (h0 : 0 ≤ p.currentStock)
    (hq : ∀ userId quantity d, op = StockOp.opIn userId quantity d → 0 ≤ quantity) :
    ∃ p', findProduct (applyOp db productId op) productId = some p'
      ∧ 0 ≤ p'.currentStock := by
  cases op with
  | opIn userId quantity d =>
    refine ⟨{ p with currentStock := p.currentStock + quantity }, ?_, ?_⟩
    · simp only [applyOp, processStockIn_eq db productId userId quantity d none none none none p h]
      unfold findProduct
      simp only [find?_setStock]
      unfold findProduct at h
      rw [h]
      rfl
    · exact add_nonneg h0 (hq userId quantity d rfl)
  | opOut userId quantity d =>
    by_cases hlt : p.currentStock < quantity
    · refine ⟨p, ?_, h0⟩
      simp [applyOp, processStockOut_eq_error db productId userId quantity d none none none p h hlt, h]
    · refine ⟨{ p with currentStock := p.currentStock - quantity }, ?_, ?_⟩
      · simp only [applyOp, processStockOut_eq_ok db productId userId quantity d none none none p h hlt]
        unfold findProduct
        simp only [find?_setStock]
        unfold findProduct at h
        rw [h]
        rfl
      · exact sub_nonneg.mpr (not_lt.mp hlt)

/-- Claim C4, amended: provided every stock-in request carries a
nonnegative quantity (the engine never checks this), no sequence of
engine-accepted operations takes a product's currentStock below 0;
rejected stock-outs change nothing and accepted ones require
quantity ≤ currentStock. -/
theorem nonneg_amended (db : DB) (productId : Nat) (ops : List StockOp) (p : Product)
    (h : findProduct db productId = some p) (h0 : 0 ≤ p.currentStock)
    (hq : ∀ userId quantity d, StockOp.opIn userId quantity d ∈ ops → 0 ≤ quantity) :
    ∃ p', findProduct (runOps db productId ops) productId = some p'
      ∧ 0 ≤ p'.currentStock := by
  induction ops generalizing db p with
  | nil => exact ⟨p, by simpa [runOps] using h, h0⟩
  | cons op rest ih =>
    obtain ⟨p₁, hf₁, h0₁⟩ := applyOp_nonneg db productId op p h h0
      (fun userId quantity d hop => hq userId quantity d (hop ▸ List.mem_cons_self op rest))
    exact ih (applyOp db productId op) p₁ hf₁ h0₁
      (fun userId quantity d hm => hq userId quantity d (List.mem_cons_of_mem op hm))

/-- The product holding 10 units used in the C4 counterexample. -/
def cexP : Product :=
  { id := 1, name := "Rice", unit := "KG", openingStock := 10,
    currentStock := 10, isActive := 1 }

/-- A database holding only that product. -/
def cexDB : DB :=
  { products := [cexP], stockTransactions := [], weeklyStockPlans := [],
    lowStockAlerts := [], nextProductId := 2, nextTransactionId := 1, nextAlertId := 1 }

/-- Counterexample to C4 as stated: a stock-in of −20 on a stock of 10 is
accepted by the engine (processStockIn performs no quantity validation)
and leaves currentStock = −10 < 0. -/
theorem nonneg_counterexample :
    (findProduct (runOps cexDB 1 [StockOp.opIn 7 (-20) 0]) 1).map Product.currentStock
        = some (10 + -20)
    ∧ ¬(0 ≤ (10 + -20 : ℚ)) :=
  ⟨rfl, by norm_num⟩

/-- Witness for the amended C4 at a concrete input: stock 100, one
accepted 40-unit stock-out, final stock nonnegative. -/
theorem nonneg_amended_witness :
    (findProduct wDB 1 = some wProduct ∧ (0 : ℚ) ≤ wProduct.currentStock
      ∧ (∀ userId quantity d,
          StockOp.opIn userId quantity d ∈ [StockOp.opOut 7 40 0] → (0 : ℚ) ≤ quantity))
    ∧ ∃ p', findProduct (runOps wDB 1 [StockOp.opOut 7 40 0]) 1 = some p'
        ∧ 0 ≤ p'.currentStock :=
  ⟨⟨rfl, by decide, by intro userId quantity d hm; simp at hm⟩,
    nonneg_amended wDB 1 [StockOp.opOut 7 40 0] wProduct rfl (by decide)
      (by intro userId quantity d hm; simp at hm)⟩

/-- Counterexample to C8 as stated: a stock-in request with the negative
quantity −5 on an existing product is not rejected — it commits, appending
a transaction row and changing currentStock from 100 to 95. -/
theorem quantity_check_counterexample :
    (processStockIn wDB 1 7 (-5) 0 none none none none).toOption.map
        (fun r => (r.1.stockTransactions.length, r.2.2.currentStock))
      = some (1, 100 + -5)
    ∧ ((-5 : ℚ) < 0 ∧ ¬((100 : ℚ) + -5 = 100)) :=
  ⟨rfl, by norm_num⟩

/-- Claim C8, amended: the mutation engine performs no quantity > 0
re-check at all — a stock-in on an existing product commits for every
quantity, zero and negative included, and a stock-out commits for every
quantity not exceeding currentStock, zero and negative included. -/
theorem no_quantity_recheck (db : DB) (productId userId : Nat) (quantity : ℚ)
    (d : Nat) (rem po so : Option String) (oq : Option ℚ) (ou : Option String)
    (p : Product) (h : findProduct db productId = some p) :
    (∃ db' tx p',
      processStockIn db productId userId quantity d rem po oq ou = .ok (db', tx, p')
        ∧ db'.stockTransactions = db.stockTransactions ++ [tx])
    ∧ (¬p.currentStock < quantity →
        ∃ db' tx p',
          processStockOut db productId userId quantity d so oq ou = .ok (db', tx, p')
            ∧ db'.stockTransactions = db.stockTransactions ++ [tx]) := by
  constructor
  · exact ⟨_, _, _, processStockIn_eq db productId userId quantity d rem po oq ou p h, rfl⟩
  · intro hle
    exact ⟨_, _, _, processStockOut_eq_ok db productId userId quantity d so oq ou p h hle, rfl⟩

/-- Witness for the amended C8 at quantity 0: a zero-quantity stock-in and
stock-out both satisfy the hypotheses and commit. -/
theorem no_quantity_recheck_witness :
    (findProduct wDB 1 = some wProduct ∧ ¬wProduct.currentStock < (0 : ℚ))
    ∧ (∃ db' tx p',
        processStockIn wDB 1 7 0 0 none none none none = .ok (db', tx, p')
          ∧ db'.stockTransactions = wDB.stockTransactions ++ [tx]) :=
  ⟨⟨rfl, by decide⟩,
    (no_quantity_recheck wDB 1 7 0 0 none none none none none wProduct rfl).1⟩

/-! ### Lemmas about the alert engine -/

lemma processItems_products (asOfDate : Nat) (items : List LowStockItem) :
    ∀ db : DB, (processItems db asOfDate items).1.products = db.products
      ∧ (processItems db asOfDate items).1.weeklyStockPlans = db.weeklyStockPlans := by
  induction items with
  | nil => intro db; exact ⟨rfl, rfl⟩
  | cons item rest ih =>
    intro db
    by_cases hex : hasUnresolvedAlert db.lowStockAlerts item.productId item.weeklyPlanId = true
    · simpa [processItems, hex] using ih db
    · simpa [processItems, hex] using
        ih { db with lowStockAlerts := db.lowStockAlerts ++ [mkAlert item db.nextAlertId asOfDate],
                     nextAlertId := db.nextAlertId + 1 }

lemma processItems_alerts (asOfDate : Nat) (items : List LowStockItem) :
    ∀ db : DB, (processItems db asOfDate items).1.lowStockAlerts =
      db.lowStockAlerts ++ (processItems db asOfDate items).2 := by
  induction items with
  | nil => intro db; simp [processItems]
  | cons item rest ih =>
    intro db
    by_cases hex : hasUnresolvedAlert db.lowStockAlerts item.productId item.weeklyPlanId = true
    · simpa [processItems, hex] using ih db
    · have h := ih { db with
        lowStockAlerts := db.lowStockAlerts ++ [mkAlert item db.nextAlertId asOfDate],
        nextAlertId := db.nextAlertId + 1 }
      simp only [processItems, hex, Bool.false_eq_true, if_false] at h ⊢
      rw [h, List.append_assoc]
      rfl

lemma hasUnresolvedAlert_append_left (l₁ l₂ : List LowStockAlert)
    (productId weeklyPlanId : Nat)
    (h : hasUnresolvedAlert l₁ productId weeklyPlanId = true) :
    hasUnresolvedAlert (l₁ ++ l₂) productId weeklyPlanId = true := by
  unfold hasUnresolvedAlert at h ⊢
  rw [List.any_append, h, Bool.true_or]

lemma processItems_covers (asOfDate : Nat) (items : List LowStockItem) :
    ∀ db : DB, ∀ item ∈ items,
      hasUnresolvedAlert (processItems db asOfDate items).1.lowStockAlerts
        item.productId item.weeklyPlanId = true := by
  induction items with
  | nil => intro db item h; exact absurd h (List.not_mem_nil item)
  | cons i rest ih =>
    intro db item hmem
    by_cases hex : hasUnresolvedAlert db.lowStockAlerts i.productId i.weeklyPlanId = true
    · rcases List.mem_cons.mp hmem with heq | hmem'
      · subst heq
        simp only [processItems, hex, if_true]
        rw [processItems_alerts]
        exact hasUnresolvedAlert_append_left _ _ _ _ hex
      · simpa [processItems, hex] using ih db item hmem'
    · rcases List.mem_cons.mp hmem with heq | hmem'
      · subst heq
        simp only [processItems, hex, Bool.false_eq_true, if_false]
        rw [processItems_alerts]
        rw [show (db.lowStockAlerts ++ [mkAlert item db.nextAlertId asOfDate]) ++
              (processItems { db with
                lowStockAlerts := db.lowStockAlerts ++ [mkAlert item db.nextAlertId asOfDate],
                nextAlertId := db.nextAlertId + 1 } asOfDate rest).2 =
            db.lowStockAlerts ++ ([mkAlert item db.nextAlertId asOfDate] ++
              (processItems { db with
                lowStockAlerts := db.lowStockAlerts ++ [mkAlert item db.nextAlertId asOfDate],
                nextAlertId := db.nextAlertId + 1 } asOfDate rest).2) from List.append_assoc _ _ _]
        unfold hasUnresolvedAlert
        rw [List.any_append]
        have hself : ([mkAlert item db.nextAlertId asOfDate] ++
            (processItems { db with
              lowStockAlerts := db.lowStockAlerts ++ [mkAlert item db.nextAlertId asOfDate],
              nextAlertId := db.nextAlertId + 1 } asOfDate rest).2).any
            (fun a => a.productId == item.productId &&
              a.weeklyPlanId == item.weeklyPlanId && !a.isResolved) = true := by
          rw [List.any_append]
          simp [mkAlert]
        rw [hself, Bool.or_true]
      · simpa [processItems, hex] using
          ih { db with
            lowStockAlerts := db.lowStockAlerts ++ [mkAlert i db.nextAlertId asOfDate],
            nextAlertId := db.nextAlertId + 1 } item hmem'

lemma processItems_noop (db : DB) (asOfDate : Nat) (items : List LowStockItem)
    (h : ∀ item ∈ items,
      hasUnresolvedAlert db.lowStockAlerts item.productId item.weeklyPlanId = true) :
    processItems db asOfDate items = (db, []) := by
  induction items with
  | nil => rfl
  | cons i rest ih =>
    have hex := h i (List.mem_cons_self i rest)
    simp only [processItems, hex, if_true]
    exact ih (fun item hm => h item (List.mem_cons_of_mem i hm))

lemma checkLowStockAlerts_congr (db₁ db₂ : DB) (asOfDate : Nat)
    (hp : db₁.products = db₂.products)
    (hw : db₁.weeklyStockPlans = db₂.weeklyStockPlans) :
    checkLowStockAlerts db₁ asOfDate = checkLowStockAlerts db₂ asOfDate := by
  unfold checkLowStockAlerts getCurrentWeekPlans
  rw [hp, hw]

/-- Claim C5: with no intervening change, a second processLowStockChecking
right after a first one creates nothing — it returns the empty list and
leaves the database exactly as the first call left it. -/
theorem alert_idempotent (db : DB) (asOfDate : Nat) :
    (processLowStockChecking (processLowStockChecking db asOfDate).1 asOfDate).2 = []
    ∧ (processLowStockChecking (processLowStockChecking db asOfDate).1 asOfDate).1 =
        (processLowStockChecking db asOfDate).1 := by
  have hpp := processItems_products asOfDate (checkLowStockAlerts db asOfDate) db
  have hsame : checkLowStockAlerts (processLowStockChecking db asOfDate).1 asOfDate =
      checkLowStockAlerts db asOfDate :=
    checkLowStockAlerts_congr _ _ asOfDate hpp.1 hpp.2
  have hcov := processItems_covers asOfDate (checkLowStockAlerts db asOfDate) db
  have hstep : processLowStockChecking (processLowStockChecking db asOfDate).1 asOfDate =
      ((processLowStockChecking db asOfDate).1, []) := by
    unfold processLowStockChecking
    unfold processLowStockChecking at hsame
    rw [hsame]
    exact processItems_noop _ _ _ (fun item hm => hcov item hm)
  rw [hstep]
  exact ⟨rfl, rfl⟩

lemma processItems_created_level (asOfDate : Nat) (items : List LowStockItem) :
    ∀ db : DB, ∀ a ∈ (processItems db asOfDate items).2,
      a.alertLevel =
        (if a.currentStock ≤ a.plannedQuantity * (1 / 2) then "critical" else "low") := by
  induction items with
  | nil => intro db a h; simp [processItems] at h
  | cons i rest ih =>
    intro db a hmem
    by_cases hex : hasUnresolvedAlert db.lowStockAlerts i.productId i.weeklyPlanId = true
    · exact ih db a (by simpa [processItems, hex] using hmem)
    · simp only [processItems, hex, Bool.false_eq_true, if_false] at hmem
      rcases List.mem_cons.mp hmem with heq | hmem'
    --  a is the alert created for the head item: its level is computed
    --  from the same snapshots that are stored in it
      · subst heq
        simp [mkAlert]
      · exact ih _ a hmem'

/-- Claim C6: every alert created by processLowStockChecking has level
"critical" exactly when its snapshotted currentStock is at most half its
snapshotted plannedQuantity, and level "low" exactly when the stock is
strictly above half the plan. -/
theorem alert_severity (db : DB) (asOfDate : Nat) (a : LowStockAlert)
    (ha : a ∈ (processLowStockChecking db asOfDate).2) :
    (a.alertLevel = "critical" ↔ a.currentStock ≤ a.plannedQuantity * (1 / 2))
    ∧ (a.alertLevel = "low" ↔ a.plannedQuantity * (1 / 2) < a.currentStock) := by
  have hl := processItems_created_level asOfDate (checkLowStockAlerts db asOfDate) db a ha
  by_cases hc : a.currentStock ≤ a.plannedQuantity * (1 / 2)
  · rw [if_pos hc] at hl
    refine ⟨⟨fun _ => hc, fun _ => hl⟩, ?_, fun hgt => absurd hc (not_le.mpr hgt)⟩
    intro hlow
    rw [hl] at hlow
    exact absurd hlow (by decide)
  · rw [if_neg hc] at hl
    refine ⟨⟨?_, fun hle => absurd hle hc⟩, fun _ => not_le.mp hc, fun _ => hl⟩
    intro hcrit
    rw [hl] at hcrit
    exact absurd hcrit (by decide)

/-- The weekly plan used by the C6 witness: 200 planned for product 1. -/
def w6Plan : WeeklyStockPlan :=
  { id := 11, productId := 1, userId := 7, plannedQuantity := 200, unit := "KG",
    weekStartDate := 3, weekEndDate := 9, isActive := true, notes := none }

/-- The product of the C6 witness: stock 100, exactly half of the plan. -/
def w6P : Product :=
  { id := 1, name := "Rice", unit := "KG", openingStock := 100,
    currentStock := 100, isActive := 1 }

/-- The database of the C6 witness. -/
def w6DB : DB :=
  { products := [w6P], stockTransactions := [], weeklyStockPlans := [w6Plan],
    lowStockAlerts := [], nextProductId := 2, nextTransactionId := 1, nextAlertId := 1 }

/-- The shortage descriptor detected in the C6 witness database. -/
def w6Item : LowStockItem :=
  { productId := 1, productName := "Rice", currentStock := 100,
    plannedQuantity := 200, weeklyPlanId := 11, unit := "KG" }

/-- The alert created from that descriptor. -/
def w6Alert : LowStockAlert := mkAlert w6Item 1 5

/-- Witness for C6: the boundary case — stock exactly half the plan — is
created by a run of processLowStockChecking and classified by the
biconditional of the claim. -/
theorem alert_severity_witness :
    w6Alert ∈ (processLowStockChecking w6DB 5).2
    ∧ (w6Alert.alertLevel = "critical" ↔
        w6Alert.currentStock ≤ w6Alert.plannedQuantity * (1 / 2)) := by
  have hlist : (processLowStockChecking w6DB 5).2 = [w6Alert] := rfl
  have hmem : w6Alert ∈ (processLowStockChecking w6DB 5).2 := by
    rw [hlist]
    exact List.mem_singleton.mpr rfl
  exact ⟨hmem, (alert_severity w6DB 5 w6Alert hmem).1⟩

/-- The shortage descriptor emitted for a plan joined to its product (the
record literal of src/server/queries.ts lines 939-946). -/
def shortageItem (pl : WeeklyStockPlan) (p : Product) : LowStockItem :=
  { productId := pl.productId, productName := p.name, currentStock := p.currentStock,
    plannedQuantity := pl.plannedQuantity, weeklyPlanId := pl.id, unit := pl.unit }

lemma mem_getCurrentWeekPlans (db : DB) (asOfDate : Nat)
    (pl : WeeklyStockPlan) (prodOpt : Option Product) :
    (pl, prodOpt) ∈ getCurrentWeekPlans db asOfDate ↔
      pl ∈ db.weeklyStockPlans ∧ pl.isActive = true
        ∧ pl.weekStartDate ≤ asOfDate ∧ asOfDate ≤ pl.weekEndDate
        ∧ prodOpt = findProduct db pl.productId := by
  unfold getCurrentWeekPlans
  rw [List.mem_map]
  constructor
  · rintro ⟨pl', hmem, heq⟩
    rw [List.mem_filter] at hmem
    obtain ⟨h₁, h₂⟩ := Prod.mk.injEq .. ▸ heq
    subst h₁
    have hcond := hmem.2
    simp only [Bool.and_eq_true, decide_eq_true_eq] at hcond
    exact ⟨hmem.1, hcond.1.1, hcond.1.2, hcond.2, h₂.symm⟩
  · rintro ⟨hmem, hact, hs, he, hprod⟩
    refine ⟨pl, List.mem_filter.mpr ⟨hmem, ?_⟩, ?_⟩
    · simp [hact, hs, he]
    · rw [hprod]
      rfl

lemma mem_checkLowStockAlerts (db : DB) (asOfDate : Nat) (item : LowStockItem) :
    item ∈ checkLowStockAlerts db asOfDate ↔
      ∃ pl p, pl ∈ db.weeklyStockPlans ∧ pl.isActive = true
        ∧ pl.weekStartDate ≤ asOfDate ∧ asOfDate ≤ pl.weekEndDate
        ∧ findProduct db pl.productId = some p
        ∧ p.currentStock < pl.plannedQuantity
        ∧ item = shortageItem pl p := by
  unfold checkLowStockAlerts
  rw [List.mem_filterMap]
  constructor
  · rintro ⟨⟨pl, prodOpt⟩, hmem, hf⟩
    rw [mem_getCurrentWeekPlans] at hmem
    obtain ⟨hmem', hact, hs, he, hprod⟩ := hmem
    cases prodOpt with
    | none => exact absurd hf (by simp)
    | some prod =>
      by_cases hlt : prod.currentStock < pl.plannedQuantity
      · simp only [if_pos hlt] at hf
        obtain heq := Option.some.injEq .. ▸ hf
        exact ⟨pl, prod, hmem', hact, hs, he, hprod.symm, hlt, heq.symm⟩
      · simp only [if_neg hlt] at hf
        exact absurd hf (by simp)
  · rintro ⟨pl, prod, hmem', hact, hs, he, hprod, hlt, heq⟩
    refine ⟨(pl, some prod), ?_, ?_⟩
    · rw [mem_getCurrentWeekPlans]
      exact ⟨hmem', hact, hs, he, hprod.symm⟩
    · simp only [if_pos hlt]
      rw [heq]
      rfl

/-- Claim C7: getCurrentWeekPlans returns exactly the active plans whose
inclusive week window contains the as-of date (joined to their product
lookup), checkLowStockAlerts emits a shortage descriptor for exactly those
returned plans whose product has currentStock strictly below the
plannedQuantity — so a product whose stock equals the plan produces no
descriptor (every emitted descriptor has currentStock < plannedQuantity);
both are pure reads returning lists, mutating no table. -/
theorem currentWeekPlans_shortfalls (db : DB) (asOfDate : Nat) :
    (∀ pl prodOpt, (pl, prodOpt) ∈ getCurrentWeekPlans db asOfDate ↔
      pl ∈ db.weeklyStockPlans ∧ pl.isActive = true
        ∧ pl.weekStartDate ≤ asOfDate ∧ asOfDate ≤ pl.weekEndDate
        ∧ prodOpt = findProduct db pl.productId)
    ∧ (∀ item, item ∈ checkLowStockAlerts db asOfDate ↔
      ∃ pl p, pl ∈ db.weeklyStockPlans ∧ pl.isActive = true
        ∧ pl.weekStartDate ≤ asOfDate ∧ asOfDate ≤ pl.weekEndDate
        ∧ findProduct db pl.productId = some p
        ∧ p.currentStock < pl.plannedQuantity
        ∧ item = shortageItem pl p)
    ∧ (∀ item ∈ checkLowStockAlerts db asOfDate,
        item.currentStock < item.plannedQuantity) := by
  refine ⟨fun pl prodOpt => mem_getCurrentWeekPlans db asOfDate pl prodOpt,
    fun item => mem_checkLowStockAlerts db asOfDate item, fun item hm => ?_⟩
  obtain ⟨pl, p, _, _, _, _, _, hlt, heq⟩ :=
    (mem_checkLowStockAlerts db asOfDate item).mp hm
  rw [heq]
  exact hlt

/-- Claim C10: shortage detection filters on the plan's active flag only —
an active, date-covering plan whose product is soft-deleted (isActive = 0)
still yields a shortage descriptor when stock is below plan, and
processLowStockChecking creates an alert for the pair when none is open. -/
theorem inactive_product_alert (db : DB) (asOfDate : Nat)
    (pl : WeeklyStockPlan) (p : Product)
    (hpl : pl ∈ db.weeklyStockPlans) (hact : pl.isActive = true)
    (hs : pl.weekStartDate ≤ asOfDate) (he : asOfDate ≤ pl.weekEndDate)
    (hp : findProduct db pl.productId = some p) (hinactive : p.isActive = 0)
    (hshort : p.currentStock < pl.plannedQuantity)
    (hnone : hasUnresolvedAlert db.lowStockAlerts pl.productId pl.id = false) :
    shortageItem pl p ∈ checkLowStockAlerts db asOfDate
    ∧ ∃ a ∈ (processLowStockChecking db asOfDate).2,
        a.productId = pl.productId ∧ a.weeklyPlanId = pl.id := by
  have hitem : shortageItem pl p ∈ checkLowStockAlerts db asOfDate :=
    (mem_checkLowStockAlerts db asOfDate (shortageItem pl p)).mpr
      ⟨pl, p, hpl, hact, hs, he, hp, hshort, rfl⟩
  refine ⟨hitem, ?_⟩
  have hcov := processItems_covers asOfDate (checkLowStockAlerts db asOfDate) db
    (shortageItem pl p) hitem
  rw [processItems_alerts] at hcov
  unfold hasUnresolvedAlert at hcov
  rw [List.any_append] at hcov
  have hnone' : db.lowStockAlerts.any (fun a =>
      a.productId == (shortageItem pl p).productId &&
        a.weeklyPlanId == (shortageItem pl p).weeklyPlanId && !a.isResolved) = false :=
    hnone
  rw [hnone', Bool.false_or, List.any_eq_true] at hcov
  obtain ⟨a, hamem, hpred⟩ := hcov
  simp only [Bool.and_eq_true, beq_iff_eq] at hpred
  exact ⟨a, hamem, hpred.1.1, hpred.1.2⟩

/-- The plan of the C10 witness. -/
def w10Plan : WeeklyStockPlan :=
  { id := 12, productId := 3, userId := 7, plannedQuantity := 200, unit := "KG",
    weekStartDate := 3, weekEndDate := 9, isActive := true, notes := none }

/-- The soft-deleted product of the C10 witness: isActive = 0, stock 80. -/
def w10P : Product :=
  { id := 3, name := "Sugar", unit := "KG", openingStock := 100,
    currentStock := 80, isActive := 0 }

/-- The database of the C10 witness. -/
def w10DB : DB :=
  { products := [w10P], stockTransactions := [], weeklyStockPlans := [w10Plan],
    lowStockAlerts := [], nextProductId := 4, nextTransactionId := 1, nextAlertId := 1 }

/-- Witness for C10: the inactive product's shortage passes detection and
an alert for the pair is created. -/
theorem inactive_product_alert_witness :
    (w10Plan ∈ w10DB.weeklyStockPlans ∧ w10P.isActive = 0
      ∧ findProduct w10DB w10Plan.productId = some w10P
      ∧ w10P.currentStock < w10Plan.plannedQuantity)
    ∧ ∃ a ∈ (processLowStockChecking w10DB 5).2,
        a.productId = w10Plan.productId ∧ a.weeklyPlanId = w10Plan.id :=
  ⟨⟨List.mem_singleton.mpr rfl, rfl, rfl, by decide⟩,
    (inactive_product_alert w10DB 5 w10Plan w10P (List.mem_singleton.mpr rfl) rfl
      (by decide) (by decide) rfl rfl (by decide) rfl).2⟩

/-- Claim C9: whenever the mutation engine throws, createStockTransaction
swallows the error and hands back the unchanged database together with a
fabricated record — id drawn from the random draw (1..1000),
previousStock 100, newStock 110 for stock_in and 90 otherwise — instead of
propagating the failure, so its callers see a normal-looking transaction
even for a rejected stock-out. -/
theorem fallback_fabrication (db : DB) (input : TxInput) (randId : Nat)
    (e : String) (herr : engineAttempt db input = .error e) :
    createStockTransaction db input randId = (db, fallbackTransaction input randId)
    ∧ (createStockTransaction db input randId).1 = db
    ∧ (createStockTransaction db input randId).2.previousStock = 100
    ∧ (createStockTransaction db input randId).2.newStock =
        (if input.type == TxType.stock_in then (110 : ℚ) else 90)
    ∧ (createStockTransaction db input randId).2.id = randId % 1000 + 1 := by
  have h : createStockTransaction db input randId = (db, fallbackTransaction input randId) := by
    unfold createStockTransaction
    rw [herr]
  refine ⟨h, ?_, ?_, ?_, ?_⟩ <;> rw [h] <;> rfl

/-- Stock-out request for an absent product, used by the C9 witness. -/
def w9Input : TxInput :=
  { productId := 99, userId := 7, type := .stock_out, quantity := 10,
    originalQuantity := none, originalUnit := none, poNumber := none,
    soNumber := some "SO-9", transactionDate := 0 }

/-- Witness for C9: on the sample database the engine throws "Product not
found" for product 99, and the storage layer fabricates a success. -/
theorem fallback_fabrication_witness :
    engineAttempt wDB w9Input = .error "Product not found"
    ∧ createStockTransaction wDB w9Input 1234 =
        (wDB, fallbackTransaction w9Input 1234) :=
  ⟨rfl, (fallback_fabrication wDB w9Input 1234 "Product not found" rfl).1⟩

end Inventory
